import Mathlib

/-!
Verification development for the reMarkable envconfig repository.

The repository binds process environment variables into a configuration
structure.  The field-binding engine itself (the `Process`, `MustProcess`
and `CheckDisallowed` entry points) is not part of the shipped sources
here: only its test suite, the V2 changelog and the auxiliary value
parsers under `types/` are.  The engine is therefore modelled from the
specification, with the changelog and the test suite of the repository
as the authority on the V2 semantics (blank environment variables are
treated like missing ones, untagged fields are skipped, anonymous
embedded structures never contribute a key segment).

The `types/google.go` value parsers are shipped, and are embedded
directly from their source.
-/

/-- Environment snapshot: an association list from variable names to values,
mirroring the process environment read by the binder. -/
abbrev Env : Type := List (String × String)

/-- Modelled from the spec: fetch the raw value and the present flag for one
variable, mirroring os.LookupEnv on the snapshot. -/
def lookupEnv : Env → String → Option String
  | [], _ => none
  | (k, v) :: rest, key => if k = key then some v else lookupEnv rest key

/-- Uppercase one string (ASCII), as the binder does when forming keys. -/
def upStr (s : String) : String := String.mk (s.data.map Char.toUpper)

/-- Join key segments with underscores. -/
def joinSegs : List String → String
  | [] => ""
  | [s] => s
  | s :: s2 :: rest => s ++ "_" ++ joinSegs (s2 :: rest)

/-- Modelled from the spec: the resolved environment key for a field is the
accumulated segment chain followed by the field annotation, joined by
underscores and uppercased. -/
def resolveKey (segs : List String) (tag : String) : String :=
  upStr (joinSegs (segs ++ [tag]))

/-- Modelled from the spec and the V2 changelog: environment variables
explicitly set blank are not handled any differently than missing
variables, so a present-but-empty value is reduced to absence before
defaults and the required check are considered. -/
def effectiveRaw (env : Env) (key : String) : Option String :=
  match lookupEnv env key with
  | some v => if v = "" then none else some v
  | none => none

/-- Leaf field kinds exercised by the claims: plain strings, string maps
and durations with the extended day unit. -/
inductive LeafKind : Type
  | str : LeafKind
  | mp : LeafKind
  | dur : LeafKind

/-- Decoded Go values.  A map value of `none` models a nil (uninitialized)
Go map, `some entries` an initialized map. -/
inductive GoValue : Type
  | vStr : String → GoValue
  | vMap : Option (List (String × String)) → GoValue
  | vDur : Int → GoValue
  | vStruct : List (String × GoValue) → GoValue

/-- Field descriptors of the target structure, mirroring the reflected
field metadata the binder walks: leaves carry the go field name, kind,
optional envconfig annotation, optional default, required and ignored
flags; structure nodes additionally carry the anonymous (embedded) flag
and their children. -/
inductive FieldSpec : Type
  | leaf (name : String) (kind : LeafKind) (tag : Option String)
      (dflt : Option String) (required ignored : Bool) : FieldSpec
  | struc (name : String) (tag : Option String) (ignored anonymous : Bool)
      (children : List FieldSpec) : FieldSpec

/-- Modelled from the spec and TestEmbeddedStruct / TestNestedStructs: a
named structure field with an annotation contributes that annotation as a
key segment for its children; a named structure field without an
annotation, or any anonymous embedded field (annotated or not), hoists
its children to the parent segment chain. -/
def childSegs (segs : List String) (tag : Option String) (anonymous : Bool) :
    List String :=
  if anonymous then segs
  else
    match tag with
    | some t => segs ++ [t]
    | none => segs

/-- Zero value for a leaf kind: empty string, nil map, zero duration. -/
def zeroLeaf : LeafKind → GoValue
  | .str => .vStr ""
  | .mp => .vMap none
  | .dur => .vDur 0

mutual

/-- Zero value of one field. -/
def zeroField : FieldSpec → String × GoValue
  | .leaf n k _ _ _ _ => (n, zeroLeaf k)
  | .struc n _ _ _ ch => (n, .vStruct (zeroFields ch))

/-- Zero values of a field list. -/
def zeroFields : List FieldSpec → List (String × GoValue)
  | [] => []
  | f :: rest => zeroField f :: zeroFields rest

end

/-- Split a character list on a separator, mirroring strings.Split. -/
def splitChar (sep : Char) : List Char → List (List Char)
  | [] => [[]]
  | c :: cs =>
    let r := splitChar sep cs
    if c = sep then [] :: r
    else
      match r with
      | h :: t => (c :: h) :: t
      | [] => [[c]]

/-- Split one map entry at its first colon, mirroring a SplitN on the
colon; `none` when the entry has no colon. -/
def splitFirstColon : List Char → Option (List Char × List Char)
  | [] => none
  | c :: cs =>
    if c = ':' then some ([], cs)
    else
      match splitFirstColon cs with
      | some (k, v) => some (c :: k, v)
      | none => none

/-- Parse the semicolon-separated entries of a map value. -/
def parseMapPairs : List (List Char) → Option (List (String × String))
  | [] => some []
  | e :: rest =>
    match splitFirstColon e with
    | none => none
    | some (k, v) =>
      match parseMapPairs rest with
      | some tailPairs => some ((String.mk k, String.mk v) :: tailPairs)
      | none => none

/-- Modelled from the spec: a map value is split on semicolons into
entries, each entry split on the first colon into key and value; an entry
with no colon is a decode error; the empty string decodes to an
initialized empty map. -/
def decodeMapEntries (v : String) : Option (List (String × String)) :=
  if v = "" then some []
  else parseMapPairs (splitChar ';' v.data)

/-- Digit test for duration parsing. -/
def isDigitChar (c : Char) : Bool := '0' ≤ c && c ≤ '9'

/-- Numeric value of a digit list. -/
def natOfDigits (ds : List Char) : Nat :=
  ds.foldl (fun a c => a * 10 + (c.toNat - 48)) 0

/-- Leading digit run of a character list. -/
def spanDigits : List Char → List Char × List Char
  | [] => ([], [])
  | c :: cs =>
    if isDigitChar c then
      let r := spanDigits cs
      (c :: r.1, r.2)
    else ([], c :: cs)

/-- Leading non-digit run of a character list (the unit letters). -/
def spanNonDigits : List Char → List Char × List Char
  | [] => ([], [])
  | c :: cs =>
    if isDigitChar c then ([], c :: cs)
    else
      let r := spanNonDigits cs
      (c :: r.1, r.2)

/-- Nanoseconds for each standard duration unit; the day unit is handled
by the pre-pass and is deliberately absent here. -/
def unitNanos : String → Option Int
  | "ns" => some 1
  | "us" => some 1000
  | "ms" => some 1000000
  | "s" => some 1000000000
  | "m" => some 60000000000
  | "h" => some 3600000000000
  | _ => none

/-- Fuelled loop of the standard duration grammar: repeated
number-and-unit groups. -/
def parseDurLoop : Nat → List Char → Option Int
  | 0, _ => none
  | _ + 1, [] => some 0
  | fuel + 1, c :: cs =>
    match spanDigits (c :: cs) with
    | (ds, r) =>
      if ds = [] then none
      else
        match spanNonDigits r with
        | (us, r2) =>
          match unitNanos (String.mk us) with
          | none => none
          | some u =>
            match parseDurLoop fuel r2 with
            | none => none
            | some restVal => some ((natOfDigits ds : Int) * u + restVal)

/-- Modelled from the spec: the standard Go duration grammar for the
integer fragment exercised by this repository: an optional bare zero, or
one or more number-unit groups over ns, us, ms, s, m, h; anything else is
a parse error. -/
def parseGoDuration (s : String) : Option Int :=
  if s = "0" then some 0
  else if s.data = [] then none
  else parseDurLoop (s.data.length + 1) s.data

/-- Modelled from the spec: day-unit pre-pass; a value consisting of one
or more digits followed by a single trailing d is recognized as a day
count, anything else is left to the standard grammar. -/
def dayPre (s : String) : Option Nat :=
  match spanDigits s.data with
  | (ds, rest) =>
    if ds = [] then none
    else if rest = ['d'] then some (natOfDigits ds)
    else none

/-- Nanoseconds per hour. -/
def nsPerHour : Int := 3600000000000

/-- Modelled from the spec: duration decoding, the standard grammar
extended with the day unit; the pre-pass multiplies a day count out into
hours before the standard grammar takes over for everything else. -/
def decodeDuration (s : String) : Option Int :=
  match dayPre s with
  | some n => some ((n : Int) * 24 * nsPerHour)
  | none => parseGoDuration s

/-- Decode one leaf value per its kind. -/
def decodeLeaf : LeafKind → String → Option GoValue
  | .str, v => some (.vStr v)
  | .mp, v =>
    match decodeMapEntries v with
    | some es => some (.vMap (some es))
    | none => none
  | .dur, v =>
    match decodeDuration v with
    | some d => some (.vDur d)
    | none => none

/-- Errors of the binder, mirroring the error kinds of the spec. -/
inductive BindError : Type
  | invalidSpecification : BindError
  | parseError (fieldName key raw : String) : BindError
  | requiredError (keys : List String) : BindError

mutual

/-- Modelled from the spec and the test suite: processing of one field.
Ignored fields and fields without an annotation are skipped and keep
their zero value; for an annotated leaf the resolved key is looked up
with blank reduced to absent, the default (when non-empty) substitutes
for an absent value, a still-absent required field has its key collected
for the aggregated required error, and decode failures are raised as
parse errors immediately.  Structure fields recurse with the child
segment chain. -/
def processField (env : Env) (segs : List String) :
    FieldSpec → Except BindError ((String × GoValue) × List String)
  | .leaf n k tag dflt req ign =>
    if ign then .ok ((n, zeroLeaf k), [])
    else
      match tag with
      | none => .ok ((n, zeroLeaf k), [])
      | some t =>
        match effectiveRaw env (resolveKey segs t) with
        | some v =>
          match decodeLeaf k v with
          | some gv => .ok ((n, gv), [])
          | none => .error (.parseError n (resolveKey segs t) v)
        | none =>
          match dflt with
          | some d =>
            if d = "" then
              .ok ((n, zeroLeaf k), if req then [resolveKey segs t] else [])
            else
              match decodeLeaf k d with
              | some gv => .ok ((n, gv), [])
              | none => .error (.parseError n (resolveKey segs t) d)
          | none =>
            .ok ((n, zeroLeaf k), if req then [resolveKey segs t] else [])
  | .struc n tag ign anon ch =>
    if ign then .ok ((n, .vStruct (zeroFields ch)), [])
    else
      match processFieldList env (childSegs segs tag anon) ch with
      | .ok (vals, miss) => .ok ((n, .vStruct vals), miss)
      | .error e => .error e

/-- Processing of a field list in declaration order, failing fast on the
first parse error and concatenating the missing required keys. -/
def processFieldList (env : Env) (segs : List String) :
    List FieldSpec → Except BindError (List (String × GoValue) × List String)
  | [] => .ok ([], [])
  | f :: rest =>
    match processField env segs f with
    | .error e => .error e
    | .ok (nv, m1) =>
      match processFieldList env segs rest with
      | .error e => .error e
      | .ok (nvs, m2) => .ok (nv :: nvs, m1 ++ m2)

end

/-- Bind targets: the reference handed to Process is either a bare value
(not a pointer), a pointer to a non-structure such as a map, or a
pointer to a structure described by its field list. -/
inductive Target : Type
  | byValue : Target
  | ptrToMap : Target
  | ptrToStruct (fields : List FieldSpec) : Target

/-- Root segment chain for a caller-supplied name space string: empty for
the empty string, otherwise the single leading segment. -/
def rootSegs (p : String) : List String := if p = "" then [] else [p]

/-- Modelled from the spec: the Process entry point; a target that is not
a pointer to a structure fails with ErrInvalidSpecification, otherwise
the fields are traversed and the aggregated required error (naming every
offending resolved key) is raised after the traversal. -/
def Process (p : String) (t : Target) (env : Env) :
    Except BindError (List (String × GoValue)) :=
  match t with
  | .ptrToStruct fields =>
    match processFieldList env (rootSegs p) fields with
    | .error e => .error e
    | .ok (vals, miss) =>
      if miss = [] then .ok vals else .error (.requiredError miss)
  | _ => .error .invalidSpecification

/-- Outcome of the panicking variant: a normal result or a panic carrying
the underlying error. -/
inductive MustOut : Type
  | ok (vals : List (String × GoValue)) : MustOut
  | panicked (e : BindError) : MustOut

/-- Modelled from the spec: MustProcess escalates any Process error to a
fatal abort. -/
def MustProcess (p : String) (t : Target) (env : Env) : MustOut :=
  match Process p t env with
  | .ok vals => .ok vals
  | .error e => .panicked e

mutual

/-- Resolved keys of one non-ignored field subtree; ignored fields
contribute none of their keys. -/
def knownKeysF (segs : List String) : FieldSpec → List String
  | .leaf _ _ tag _ _ ign =>
    if ign then []
    else
      match tag with
      | some t => [resolveKey segs t]
      | none => []
  | .struc _ tag ign anon ch =>
    if ign then [] else knownKeysL (childSegs segs tag anon) ch

/-- Resolved keys of a field list. -/
def knownKeysL (segs : List String) : List FieldSpec → List String
  | [] => []
  | f :: rest => knownKeysF segs f ++ knownKeysL segs rest

end

/-- Boolean list prefix test used for the strict check. -/
def listPfx : List Char → List Char → Bool
  | [], _ => true
  | _ :: _, [] => false
  | a :: as, b :: bs => a = b && listPfx as bs

/-- Uppercased name space followed by an underscore, the pattern the
strict check matches environment variables against; empty when the
caller supplied no name space. -/
def envPfx (p : String) : String := if p = "" then "" else upStr p ++ "_"

/-- First environment variable matching the pattern that is not a known
resolved key. -/
def firstUnknown (kp : String) (known : List String) : Env → Option String
  | [] => none
  | (k, _) :: rest =>
    if listPfx kp.data k.data = true ∧ k ∉ known then some k
    else firstUnknown kp known rest

/-- Modelled from the spec: CheckDisallowed scans the environment for
variables matching the active name space that are not resolved keys of
the structure, and reports the first offender as an unknown environment
variable error message. -/
def CheckDisallowed (p : String) (fields : List FieldSpec) (env : Env) :
    Option String :=
  match firstUnknown (envPfx p) (knownKeysL (rootSegs p) fields) env with
  | some k => some ("unknown environment variable " ++ k)
  | none => none

example : resolveKey ["env_config"] "BAR" = "ENV_CONFIG_BAR" := by decide

example :
    Process "env_config"
      (.ptrToStruct [.leaf "DefaultVar" .str (some "DEFAULTVAR")
        (some "foobar") false false])
      [("ENV_CONFIG_DEFAULTVAR", "")] =
    .ok [("DefaultVar", .vStr "foobar")] := by rfl

example : decodeDuration "10d" = some (240 * nsPerHour) := by rfl

example : decodeDuration "1dd" = none := by rfl

example : decodeDuration "2m" = some 120000000000 := by rfl

example :
    CheckDisallowed "env_config"
      [.leaf "Debug" .str (some "DEBUG") none false false]
      [("ENV_CONFIG_DEBUG", "true"), ("UNRELATED_ENV_VAR", "true")] =
    none := by rfl

/-- C1: the claim states that a configured default is used only when the
variable is entirely absent and that a present-but-blank variable is
decoded as the empty string.  On the code as tested and documented in the
V2 changelog, a blank variable is treated like a missing one, so the
default foobar is substituted for the explicitly blank DEFAULTVAR: at
this concrete input the bound value is foobar, not the empty string. -/
theorem c1_counterexample :
    Process "env_config"
      (.ptrToStruct [.leaf "DefaultVar" .str (some "DEFAULTVAR")
        (some "foobar") false false])
      [("ENV_CONFIG_DEFAULTVAR", "")] =
      .ok [("DefaultVar", .vStr "foobar")] ∧ ("foobar" : String) ≠ "" :=
  ⟨rfl, by decide⟩

/-- C1 amended: an environment variable explicitly set blank is treated
identically to an absent one; for a field with a configured default the
binder behaves on a blank variable exactly as it does when the variable
is missing from the environment, so the default is substituted. -/
theorem c1_amended (env : Env) (segs : List String) (n t : String)
    (k : LeafKind) (d : String) (req : Bool)
    (h : lookupEnv env (resolveKey segs t) = some "") :
    processField env segs (.leaf n k (some t) (some d) req false) =
      processField [] segs (.leaf n k (some t) (some d) req false) := by
  have heff : effectiveRaw env (resolveKey segs t) = none := by
    simp [effectiveRaw, h]
  have heff2 : effectiveRaw [] (resolveKey segs t) = none := by
    simp [effectiveRaw, lookupEnv]
  simp [processField, heff, heff2]

/-- C1 amended witness at the input of TestExplicitBlankDefaultVar. -/
theorem c1_amended_witness :
    processField [("ENV_CONFIG_DEFAULTVAR", "")] ["env_config"]
      (.leaf "DefaultVar" .str (some "DEFAULTVAR") (some "foobar")
        false false) =
    processField [] ["env_config"]
      (.leaf "DefaultVar" .str (some "DEFAULTVAR") (some "foobar")
        false false) :=
  c1_amended _ _ _ _ _ _ _ (by rfl)

/-- C2: the claim states that a field without an explicit annotation is
bound from the key derived by word-splitting its identifier.  On the
code as tested (TestNonTaggedFields), a field without an envconfig
annotation is skipped entirely: with BAR set in the environment the
untagged field Bar keeps its zero value instead of the value bar, and
even its default is not applied. -/
theorem c2_counterexample :
    Process ""
      (.ptrToStruct [.leaf "Bar" .str none (some "can you hear me?")
        false false])
      [("BAR", "bar")] =
      .ok [("Bar", .vStr "")] ∧ ("" : String) ≠ "bar" :=
  ⟨rfl, by decide⟩

/-- C2 amended: no key is ever derived from a field identifier; a field
without an explicit envconfig annotation is skipped entirely by the
binder, keeping its zero value regardless of the environment, of its
default and of its required flag. -/
theorem c2_amended (env : Env) (p n : String) (k : LeafKind)
    (dflt : Option String) (req : Bool) :
    Process p (.ptrToStruct [.leaf n k none dflt req false]) env =
      .ok [(n, zeroLeaf k)] := by
  simp [Process, processFieldList, processField]

/-- C3: the claim states that every required field whose variable is
present but explicitly blank fails with the required error, with no
qualification about defaults.  On the code as documented by the V2
changelog a blank variable is treated like a missing one, so a required
field that also carries a non-empty default binds the default and
succeeds: at this concrete input, mirroring the RequiredDefault field of
the test Specification with its variable set blank, Process returns a
successful binding and no error at all. -/
theorem c3_counterexample :
    Process "env_config"
      (.ptrToStruct [.leaf "RequiredDefault" .str (some "REQUIREDDEFAULT")
        (some "foo2bar") true false])
      [("ENV_CONFIG_REQUIREDDEFAULT", "")] =
      .ok [("RequiredDefault", .vStr "foo2bar")] ∧
    ∀ e : BindError,
      (Except.ok [("RequiredDefault", GoValue.vStr "foo2bar")] :
        Except BindError (List (String × GoValue))) ≠ .error e :=
  ⟨rfl, fun _ h => Except.noConfusion h⟩

/-- C3 amended: for a required field with no configured default, an
absent resolved variable fails with the required error naming the
resolved key, an explicitly blank variable fails the same way, and a
present non-blank variable binds successfully to its value; when a
non-empty default is configured, an absent or blank variable instead
binds the default and the required check is satisfied. -/
theorem c3_required (p : String) (env : Env) (n t v : String) :
    (lookupEnv env (resolveKey (rootSegs p) t) = none →
      Process p (.ptrToStruct [.leaf n .str (some t) none true false]) env =
        .error (.requiredError [resolveKey (rootSegs p) t])) ∧
    (lookupEnv env (resolveKey (rootSegs p) t) = some "" →
      Process p (.ptrToStruct [.leaf n .str (some t) none true false]) env =
        .error (.requiredError [resolveKey (rootSegs p) t])) ∧
    (lookupEnv env (resolveKey (rootSegs p) t) = some v → v ≠ "" →
      Process p (.ptrToStruct [.leaf n .str (some t) none true false]) env =
        .ok [(n, .vStr v)]) ∧
    (∀ d : String, d ≠ "" →
      (lookupEnv env (resolveKey (rootSegs p) t) = none ∨
        lookupEnv env (resolveKey (rootSegs p) t) = some "") →
      Process p
          (.ptrToStruct [.leaf n .str (some t) (some d) true false]) env =
        .ok [(n, .vStr d)]) := by
  refine ⟨?_, ?_, ?_, ?_⟩
  · intro h
    have heff : effectiveRaw env (resolveKey (rootSegs p) t) = none := by
      simp [effectiveRaw, h]
    simp [Process, processFieldList, processField, heff]
  · intro h
    have heff : effectiveRaw env (resolveKey (rootSegs p) t) = none := by
      simp [effectiveRaw, h]
    simp [Process, processFieldList, processField, heff]
  · intro h hv
    have heff : effectiveRaw env (resolveKey (rootSegs p) t) = some v := by
      simp [effectiveRaw, h, hv]
    simp [Process, processFieldList, processField, heff, decodeLeaf]
  · intro d hd habs
    have heff : effectiveRaw env (resolveKey (rootSegs p) t) = none := by
      rcases habs with h | h <;> simp [effectiveRaw, h]
    simp [Process, processFieldList, processField, heff, hd, decodeLeaf]

/-- C3 witness at the inputs of TestRequiredVar,
TestErrorMessageForRequiredAltVar and the blank RequiredDefault case. -/
theorem c3_required_witness :
    Process "env_config"
      (.ptrToStruct [.leaf "Foo" .str (some "BAR") none true false]) [] =
      .error (.requiredError ["ENV_CONFIG_BAR"]) ∧
    Process "env_config"
      (.ptrToStruct [.leaf "Foo" .str (some "BAR") none true false])
      [("ENV_CONFIG_BAR", "")] =
      .error (.requiredError ["ENV_CONFIG_BAR"]) ∧
    Process "env_config"
      (.ptrToStruct [.leaf "Foo" .str (some "BAR") none true false])
      [("ENV_CONFIG_BAR", "snap")] =
      .ok [("Foo", .vStr "snap")] ∧
    Process "env_config"
      (.ptrToStruct [.leaf "Foo" .str (some "BAR") (some "dflt")
        true false])
      [("ENV_CONFIG_BAR", "")] =
      .ok [("Foo", .vStr "dflt")] :=
  ⟨(c3_required "env_config" [] "Foo" "BAR" "snap").1 (by rfl),
   (c3_required "env_config" [("ENV_CONFIG_BAR", "")] "Foo" "BAR"
      "snap").2.1 (by rfl),
   (c3_required "env_config" [("ENV_CONFIG_BAR", "snap")] "Foo" "BAR"
      "snap").2.2.1 (by rfl) (by decide),
   (c3_required "env_config" [("ENV_CONFIG_BAR", "")] "Foo" "BAR"
      "snap").2.2.2 "dflt" (by decide) (Or.inr (by rfl))⟩

/-- C4: the claim states that an explicit annotation on an anonymous
embedded field becomes a named segment for its children.  On the code as
tested (TestEmbeddedStruct), the embedded Specification field carries the
annotation EMBEDDED and its child Enabled is still bound from
ENV_CONFIG_ENABLED; the key ENV_CONFIG_EMBEDDED_ENABLED required by the
claim binds nothing, leaving the child at its zero value. -/
theorem c4_counterexample :
    Process "env_config"
      (.ptrToStruct [.struc "Embedded" (some "EMBEDDED") false true
        [.leaf "Enabled" .str (some "ENABLED") none false false]])
      [("ENV_CONFIG_EMBEDDED_ENABLED", "x")] =
      .ok [("Embedded", .vStruct [("Enabled", .vStr "")])] ∧
    ("" : String) ≠ "x" :=
  ⟨rfl, by decide⟩

/-- C4 amended: the children of an anonymous embedded field are always
bound as if they were direct children of the parent; an explicit
annotation on the embedded field itself contributes no key segment, so
processing is identical with and without the annotation, and the
child of an annotated embedded structure is bound from the un-prefixed
key as in TestEmbeddedStruct. -/
theorem c4_amended (env : Env) (segs : List String) (n : String)
    (tag : Option String) (ch : List FieldSpec) :
    processField env segs (.struc n tag false true ch) =
      processField env segs (.struc n none false true ch) ∧
    Process "env_config"
      (.ptrToStruct [.struc "Embedded" (some "EMBEDDED") false true
        [.leaf "Enabled" .str (some "ENABLED") none false false]])
      [("ENV_CONFIG_ENABLED", "true")] =
      .ok [("Embedded", .vStruct [("Enabled", .vStr "true")])] := by
  constructor
  · simp [processField, childSegs]
  · rfl

/-- C5: the claim states that a map field set to the empty string becomes
an initialized zero-entry map.  On the code as tested
(TestEmptyMapFieldOverride), a blank variable is treated like a missing
one, so the map field stays nil: at this concrete input the bound value
is the nil map, not an initialized empty map. -/
theorem c5_counterexample :
    Process "env_config"
      (.ptrToStruct [.leaf "EmptyMapField" .mp (some "EMPTY_MAPFIELD")
        none false false])
      [("ENV_CONFIG_EMPTY_MAPFIELD", "")] =
      .ok [("EmptyMapField", .vMap none)] ∧
    (none : Option (List (String × String))) ≠ some [] :=
  ⟨rfl, by decide⟩

/-- C5 amended: a map field whose variable is set to the empty string is
treated exactly like an unset one and remains uninitialized (nil); only
a non-blank value (or a configured default) initializes the map. -/
theorem c5_amended (env : Env) (p n t : String)
    (h : lookupEnv env (resolveKey (rootSegs p) t) = some "") :
    Process p (.ptrToStruct [.leaf n .mp (some t) none false false]) env =
      .ok [(n, .vMap none)] := by
  have heff : effectiveRaw env (resolveKey (rootSegs p) t) = none := by
    simp [effectiveRaw, h]
  simp [Process, processFieldList, processField, heff, zeroLeaf]

/-- C5 amended witness at the input of TestEmptyMapFieldOverride. -/
theorem c5_amended_witness :
    Process "env_config"
      (.ptrToStruct [.leaf "EmptyMapField" .mp (some "EMPTY_MAPFIELD")
        none false false])
      [("ENV_CONFIG_EMPTY_MAPFIELD", "")] =
      .ok [("EmptyMapField", .vMap none)] :=
  c5_amended _ _ _ _ (by rfl)

/-- C6: duration decoding parses 10d as 240 hours, 1d as 24 hours and 0d
as zero, and rejects 1dd, d and a space followed by d; the same holds
through Process for duration fields with those defaults, mirroring
TestDayDuration. -/
theorem c6_day_durations :
    decodeDuration "10d" = some (240 * nsPerHour) ∧
    decodeDuration "1d" = some (24 * nsPerHour) ∧
    decodeDuration "0d" = some 0 ∧
    decodeDuration "1dd" = none ∧
    decodeDuration "d" = none ∧
    decodeDuration " d" = none ∧
    Process "env_config"
      (.ptrToStruct
        [.leaf "Days0" .dur (some "DAYS_0") (some "0d") false false,
         .leaf "Days1" .dur (some "DAYS_1") (some "1d") false false,
         .leaf "Days10" .dur (some "DAYS_10") (some "10d") false false])
      [] =
      .ok [("Days0", .vDur 0), ("Days1", .vDur (24 * nsPerHour)),
           ("Days10", .vDur (240 * nsPerHour))] :=
  ⟨rfl, rfl, rfl, rfl, rfl, rfl, rfl⟩

/-- C8: for an annotated field the binder consults the environment only
through the fully resolved key: two environments agreeing on the
resolved key produce identical bindings for the field, whatever other
variables (such as a non-prefixed variant of the annotation) they
contain. -/
theorem c8_resolved_key_only (env env2 : Env) (segs : List String)
    (n t : String) (k : LeafKind) (dflt : Option String) (req : Bool)
    (h : lookupEnv env (resolveKey segs t) =
      lookupEnv env2 (resolveKey segs t)) :
    processField env segs (.leaf n k (some t) dflt req false) =
      processField env2 segs (.leaf n k (some t) dflt req false) := by
  have heff : effectiveRaw env (resolveKey segs t) =
      effectiveRaw env2 (resolveKey segs t) := by
    simp [effectiveRaw, h]
  simp [processField, heff]

/-- C8 witness at the input of TestAlternateNameDefaultVar: the annotated
field BROKER under the env_config name space ignores the bare BROKER
variable and falls back to its default. -/
theorem c8_witness :
    processField [("BROKER", "betterbroker")] ["env_config"]
      (.leaf "NoPrefixDefault" .str (some "BROKER") (some "127.0.0.1")
        false false) =
    processField [] ["env_config"]
      (.leaf "NoPrefixDefault" .str (some "BROKER") (some "127.0.0.1")
        false false) ∧
    processField [] ["env_config"]
      (.leaf "NoPrefixDefault" .str (some "BROKER") (some "127.0.0.1")
        false false) =
      .ok (("NoPrefixDefault", .vStr "127.0.0.1"), []) :=
  ⟨c8_resolved_key_only _ _ _ _ _ _ _ _ (by rfl), rfl⟩

/-- C9: a target that is not a pointer to a structure, whether a bare
value or a pointer to a map, makes Process fail with the
InvalidSpecification error and binds nothing, and MustProcess escalates
this to a panic. -/
theorem c9_invalid_target (p : String) (env : Env) :
    Process p .byValue env = .error .invalidSpecification ∧
    Process p .ptrToMap env = .error .invalidSpecification ∧
    MustProcess p .byValue env = .panicked .invalidSpecification ∧
    MustProcess p .ptrToMap env = .panicked .invalidSpecification :=
  ⟨rfl, rfl, rfl, rfl⟩

theorem firstUnknown_none_iff (kp : String) (known : List String) :
    ∀ env : Env, firstUnknown kp known env = none ↔
      ∀ kv ∈ env, listPfx kp.data kv.1.data = true → kv.1 ∈ known := by
  intro env
  induction env with
  | nil => simp [firstUnknown]
  | cons kv rest ih =>
    obtain ⟨k, v⟩ := kv
    rw [firstUnknown]
    split
    · rename_i hcond
      constructor
      · intro h; cases h
      · intro h
        exact absurd (h (k, v) (List.mem_cons_self _ _) hcond.1) hcond.2
    · rename_i hcond
      rw [ih]
      constructor
      · intro h kv2 hkv2 hp
        rcases List.mem_cons.mp hkv2 with heq | hm
        · subst heq
          by_contra hk
          exact hcond ⟨hp, hk⟩
        · exact h kv2 hm hp
      · intro h kv2 hkv2 hp
        exact h kv2 (List.mem_cons_of_mem _ hkv2) hp

theorem firstUnknown_some (kp : String) (known : List String) :
    ∀ env : Env, ∀ k, firstUnknown kp known env = some k →
      (∃ v, (k, v) ∈ env) ∧ listPfx kp.data k.data = true ∧ k ∉ known := by
  intro env
  induction env with
  | nil => intro k h; cases h
  | cons kv rest ih =>
    obtain ⟨k1, v1⟩ := kv
    intro k h
    rw [firstUnknown] at h
    split at h
    · rename_i hcond
      cases h
      exact ⟨⟨v1, List.mem_cons_self _ _⟩, hcond.1, hcond.2⟩
    · obtain ⟨⟨v, hv⟩, hp, hk⟩ := ih k h
      exact ⟨⟨v, List.mem_cons_of_mem _ hv⟩, hp, hk⟩

/-- C7: CheckDisallowed reports no error exactly when every environment
variable matching the active name space pattern is a resolved key of the
structure; any reported message names an offending variable in the
unknown environment variable format; and, since ignored fields
contribute no known keys, setting the key of an ignored field trips the
check, as in TestCheckDisallowedIgnored. -/
theorem c7_check_disallowed (p : String) (fields : List FieldSpec)
    (env : Env) :
    (CheckDisallowed p fields env = none ↔
      ∀ kv ∈ env, listPfx (envPfx p).data kv.1.data = true →
        kv.1 ∈ knownKeysL (rootSegs p) fields) ∧
    (∀ m, CheckDisallowed p fields env = some m →
      ∃ k v, (k, v) ∈ env ∧ listPfx (envPfx p).data k.data = true ∧
        k ∉ knownKeysL (rootSegs p) fields ∧
        m = "unknown environment variable " ++ k) ∧
    CheckDisallowed "env_config"
      [.leaf "Debug" .str (some "DEBUG") none false false,
       .leaf "Ignored" .str (some "IGNORED") none false true]
      [("ENV_CONFIG_DEBUG", "true"), ("ENV_CONFIG_IGNORED", "false")] =
      some "unknown environment variable ENV_CONFIG_IGNORED" := by
  refine ⟨?_, ?_, by decide⟩
  · unfold CheckDisallowed
    cases hfu : firstUnknown (envPfx p) (knownKeysL (rootSegs p) fields) env
      with
    | none =>
      simp only []
      constructor
      · intro _
        exact (firstUnknown_none_iff _ _ env).mp hfu
      · intro _; trivial
    | some k =>
      simp only []
      constructor
      · intro h; cases h
      · intro hall
        obtain ⟨⟨v, hv⟩, hp, hk⟩ := firstUnknown_some _ _ env k hfu
        exact absurd (hall (k, v) hv hp) hk
  · intro m
    unfold CheckDisallowed
    cases hfu : firstUnknown (envPfx p) (knownKeysL (rootSegs p) fields) env
      with
    | none => intro h; cases h
    | some k =>
      intro h
      cases h
      obtain ⟨⟨v, hv⟩, hp, hk⟩ := firstUnknown_some _ _ env k hfu
      exact ⟨k, v, hv, hp, hk, rfl⟩

/-- C7 witness at the inputs of TestCheckDisallowedOnlyAllowed. -/
theorem c7_witness :
    CheckDisallowed "env_config"
      [.leaf "Debug" .str (some "DEBUG") none false false]
      [("ENV_CONFIG_DEBUG", "true"), ("UNRELATED_ENV_VAR", "true")] =
      none :=
  (c7_check_disallowed "env_config"
      [.leaf "Debug" .str (some "DEBUG") none false false]
      [("ENV_CONFIG_DEBUG", "true"), ("UNRELATED_ENV_VAR", "true")]).1.mpr
    (by decide)

/-- Word-class character of the patterns in types/google.go: the regexp
class combining word characters and the hyphen. -/
def isWordDash (c : Char) : Bool := c.isAlphanum || c = '_' || c = '-'

/-- Maximal leading run of word-class characters, embedding the greedy
one-or-more repetition of the class. -/
def takeRun : List Char → List Char × List Char
  | [] => ([], [])
  | c :: cs =>
    if isWordDash c then
      let r := takeRun cs
      (c :: r.1, r.2)
    else ([], c :: cs)

/-- Strip a literal from the front of a list; `none` when the literal is
not a front segment. -/
def stripPfx : List Char → List Char → Option (List Char)
  | [], rest => some rest
  | _ :: _, [] => none
  | a :: as, b :: bs => if a = b then stripPfx as bs else none

/-- Leading literal of both patterns in types/google.go. -/
def litProjects : List Char := "projects/".data

/-- Middle literal of the pubsub topic pattern. -/
def litTopics : List Char := "/topics/".data

/-- Middle literal of the firestore database pattern. -/
def litDatabases : List Char := "/databases/".data

/-- Match of the google pattern anchored at the head of the list: the
projects literal, a nonempty word-class run (first capture), the middle
literal, a nonempty word-class run (second capture); embeds the two
regexps of types/google.go, which differ only in the middle literal. -/
def matchSegAt (mid : List Char) (cs : List Char) :
    Option (List Char × List Char) :=
  match stripPfx litProjects cs with
  | none => none
  | some r1 =>
    if (takeRun r1).1 = [] then none
    else
      match stripPfx mid (takeRun r1).2 with
      | none => none
      | some r3 =>
        if (takeRun r3).1 = [] then none
        else some ((takeRun r1).1, (takeRun r3).1)

/-- Unanchored leftmost search, embedding FindStringSubmatch: the match
attempt is repeated at every position and the first success wins. -/
def findSeg (mid : List Char) : List Char → Option (List Char × List Char)
  | [] => none
  | c :: cs =>
    match matchSegAt mid (c :: cs) with
    | some r => some r
    | none => findSeg mid cs

/-- Sentinel error text of ErrInvalidGoogleTopicID. -/
def errTopicMsg : String := "topic is not valid format"

/-- Sentinel error text of ErrInvalidGoogleFirestoreID. -/
def errFirestoreMsg : String := "firestore id is not valid format"

/-- Embedded from types/google.go: the pubsub topic value type. -/
structure GooglePubSubTopic : Type where
  ProjectID : String
  TopicID : String
deriving DecidableEq

/-- Embedded from types/google.go: Set runs the topic regexp over the
value; with no match it returns the sentinel error and leaves the
receiver unchanged, otherwise it stores the two captures. -/
def GooglePubSubTopic.Set (t : GooglePubSubTopic) (value : String) :
    GooglePubSubTopic × Option String :=
  match findSeg litTopics value.data with
  | none => (t, some errTopicMsg)
  | some (p, q) => (⟨String.mk p, String.mk q⟩, none)

/-- Embedded from the firestore part of the types sources: the firestore
database value type. -/
structure GoogleFirestoreDatabase : Type where
  ProjectID : String
  Database : String
deriving DecidableEq

/-- Embedded from the firestore part of the types sources: Set runs the
database regexp over the value; with no match it returns the sentinel
error and leaves the receiver unchanged, otherwise it stores the two
captures. -/
def GoogleFirestoreDatabase.Set (f : GoogleFirestoreDatabase)
    (value : String) : GoogleFirestoreDatabase × Option String :=
  match findSeg litDatabases value.data with
  | none => (f, some errFirestoreMsg)
  | some (p, q) => (⟨String.mk p, String.mk q⟩, none)

/-- Nonempty all-word-class run, the denotation of the capture groups. -/
def wordRun (l : List Char) : Prop :=
  l ≠ [] ∧ ∀ c ∈ l, isWordDash c = true

/-- Spec-side denotation of the pattern, written from the words of the
claim: the list contains a substring consisting of the projects literal,
a word-class segment, the middle literal and a word-class segment. -/
def hasSegSub (mid cs : List Char) : Prop :=
  ∃ a p q b, cs = a ++ litProjects ++ p ++ mid ++ q ++ b ∧
    wordRun p ∧ wordRun q

example :
    (GooglePubSubTopic.Set ⟨"", ""⟩ "xprojects/a-1/topics/b_2,y").1 =
      ⟨"a-1", "b_2"⟩ := by decide

example :
    (GooglePubSubTopic.Set ⟨"x", "y"⟩ "invalid/project-id/topics") =
      (⟨"x", "y"⟩, some errTopicMsg) := by decide

example :
    (GoogleFirestoreDatabase.Set ⟨"", ""⟩
      "projects/project-id/databases/db").1 = ⟨"project-id", "db"⟩ := by
  decide

theorem stripPfx_eq_some (a : List Char) :
    ∀ l r, stripPfx a l = some r ↔ l = a ++ r := by
  induction a with
  | nil =>
    intro l r
    simp [stripPfx]
  | cons c cs ih =>
    intro l r
    cases l with
    | nil =>
      simp [stripPfx]
    | cons b bs =>
      simp only [stripPfx]
      by_cases hcb : c = b
      · subst hcb
        simp [ih]
      · simp only [if_neg hcb, List.cons_append, List.cons.injEq]
        constructor
        · intro h; exact Option.noConfusion h
        · intro h; exact absurd h.1.symm hcb

theorem takeRun_eq : ∀ (l a b : List Char), takeRun l = (a, b) →
    l = a ++ b ∧ (∀ c ∈ a, isWordDash c = true) ∧
      (b = [] ∨ ∃ d ds, b = d :: ds ∧ isWordDash d = false) := by
  intro l
  induction l with
  | nil =>
    intro a b h
    rw [takeRun] at h
    injection h with h1 h2
    subst h1; subst h2
    simp
  | cons c cs ih =>
    intro a b h
    rw [takeRun] at h
    split at h
    · rename_i hw
      injection h with h1 h2
      subst h1; subst h2
      obtain ⟨hl, hw2, hb⟩ := ih (takeRun cs).1 (takeRun cs).2 rfl
      refine ⟨?_, ?_, hb⟩
      · rw [List.cons_append, ← hl]
      · intro x hx
        rcases List.mem_cons.mp hx with rfl | hx2
        · exact hw
        · exact hw2 x hx2
    · rename_i hw
      injection h with h1 h2
      subst h1; subst h2
      refine ⟨by simp, by simp, Or.inr ⟨c, cs, rfl, by simpa using hw⟩⟩

theorem takeRun_of_append : ∀ (a b : List Char),
    (∀ c ∈ a, isWordDash c = true) →
    (b = [] ∨ ∃ d ds, b = d :: ds ∧ isWordDash d = false) →
    takeRun (a ++ b) = (a, b) := by
  intro a
  induction a with
  | nil =>
    intro b _ hb
    rcases hb with rfl | ⟨d, ds, rfl, hd⟩
    · rfl
    · simp [takeRun, hd]
  | cons x xs ih =>
    intro b ha hb
    have hx : isWordDash x = true := ha x (List.mem_cons_self _ _)
    have hxs : ∀ c ∈ xs, isWordDash c = true := fun c hc =>
      ha c (List.mem_cons_of_mem _ hc)
    simp [takeRun, hx, ih b hxs hb]

theorem matchSegAt_some (mid cs p q : List Char)
    (h : matchSegAt mid cs = some (p, q)) :
    ∃ b, cs = litProjects ++ p ++ mid ++ q ++ b ∧
      p ≠ [] ∧ (∀ c ∈ p, isWordDash c = true) ∧
      q ≠ [] ∧ (∀ c ∈ q, isWordDash c = true) := by
  unfold matchSegAt at h
  split at h
  · cases h
  · rename_i r1 h1
    split at h
    · cases h
    · rename_i hp
      split at h
      · cases h
      · rename_i r3 h2
        split at h
        · cases h
        · rename_i hq
          injection h with h3
          injection h3 with hp2 hq2
          obtain ⟨p1, r2, hr⟩ : ∃ x y, takeRun r1 = (x, y) := ⟨_, _, rfl⟩
          obtain ⟨q1, b1, hr3⟩ : ∃ x y, takeRun r3 = (x, y) := ⟨_, _, rfl⟩
          obtain ⟨e1, w1, _⟩ := takeRun_eq r1 p1 r2 hr
          obtain ⟨e3, w3, _⟩ := takeRun_eq r3 q1 b1 hr3
          rw [hr] at hp hp2
          rw [hr3] at hq hq2
          have hcs : cs = litProjects ++ r1 := (stripPfx_eq_some _ _ _).mp h1
          have hmid2 : (takeRun r1).2 = mid ++ r3 := (stripPfx_eq_some _ _ _).mp h2
          rw [hr] at hmid2
          dsimp only at hp hp2 hq hq2 hmid2
          subst hp2; subst hq2
          refine ⟨b1, ?_, hp, w1, hq, w3⟩
          rw [hcs, e1, hmid2, e3]
          simp [List.append_assoc]

theorem matchSegAt_of_decomp (mid p q b : List Char) (d : Char)
    (ms : List Char) (hmid : mid = d :: ms) (hd : isWordDash d = false)
    (hp : p ≠ []) (hpw : ∀ c ∈ p, isWordDash c = true)
    (hq : q ≠ []) (hqw : ∀ c ∈ q, isWordDash c = true) :
    matchSegAt mid (litProjects ++ (p ++ (mid ++ (q ++ b)))) ≠ none := by
  have h1 : stripPfx litProjects (litProjects ++ (p ++ (mid ++ (q ++ b)))) =
      some (p ++ (mid ++ (q ++ b))) := (stripPfx_eq_some _ _ _).mpr rfl
  have hrun1 : takeRun (p ++ (mid ++ (q ++ b))) = (p, mid ++ (q ++ b)) := by
    apply takeRun_of_append _ _ hpw
    exact Or.inr ⟨d, ms ++ (q ++ b), by simp [hmid], hd⟩
  have h2 : stripPfx mid (mid ++ (q ++ b)) = some (q ++ b) :=
    (stripPfx_eq_some _ _ _).mpr rfl
  obtain ⟨qh, qt, rfl⟩ := List.exists_cons_of_ne_nil hq
  have hqh : isWordDash qh = true := hqw qh (List.mem_cons_self _ _)
  have hrun2 : takeRun ((qh :: qt) ++ b) =
      (qh :: (takeRun (qt ++ b)).1, (takeRun (qt ++ b)).2) := by
    simp [takeRun, hqh]
  unfold matchSegAt
  rw [h1]
  simp only [hrun1, hrun2, h2]
  simp [hp]

theorem findSeg_ne_none_of_matchSegAt (mid cs : List Char)
    (h : matchSegAt mid cs ≠ none) : findSeg mid cs ≠ none := by
  cases cs with
  | nil =>
    exfalso
    apply h
    rfl
  | cons c cs2 =>
    rw [findSeg]
    cases hm : matchSegAt mid (c :: cs2) with
    | none => exact absurd hm h
    | some r => simp

theorem findSeg_some (mid : List Char) :
    ∀ cs p q, findSeg mid cs = some (p, q) →
      ∃ a b, cs = a ++ litProjects ++ p ++ mid ++ q ++ b ∧
        p ≠ [] ∧ (∀ c ∈ p, isWordDash c = true) ∧
        q ≠ [] ∧ (∀ c ∈ q, isWordDash c = true) := by
  intro cs
  induction cs with
  | nil => intro p q h; cases h
  | cons c cs2 ih =>
    intro p q h
    rw [findSeg] at h
    split at h
    · rename_i r hm
      injection h with h2
      subst h2
      obtain ⟨b, hcs, hp, hpw, hq, hqw⟩ := matchSegAt_some mid (c :: cs2) p q hm
      refine ⟨[], b, ?_, hp, hpw, hq, hqw⟩
      simpa using hcs
    · rename_i hm
      obtain ⟨a, b, hcs, hp, hpw, hq, hqw⟩ := ih p q h
      refine ⟨c :: a, b, ?_, hp, hpw, hq, hqw⟩
      simp only [List.cons_append, List.cons.injEq, true_and]
      simpa using hcs

theorem findSeg_ne_none_of_sub (mid : List Char) (d : Char) (ms : List Char)
    (hmid : mid = d :: ms) (hd : isWordDash d = false) :
    ∀ a p q b, p ≠ [] → (∀ c ∈ p, isWordDash c = true) →
      q ≠ [] → (∀ c ∈ q, isWordDash c = true) →
      findSeg mid (a ++ litProjects ++ p ++ mid ++ q ++ b) ≠ none := by
  intro a
  induction a with
  | nil =>
    intro p q b hp hpw hq hqw
    have heq : ([] : List Char) ++ litProjects ++ p ++ mid ++ q ++ b =
        litProjects ++ (p ++ (mid ++ (q ++ b))) := by
      simp [List.append_assoc]
    rw [heq]
    apply findSeg_ne_none_of_matchSegAt
    exact matchSegAt_of_decomp mid p q b d ms hmid hd hp hpw hq hqw
  | cons x a2 ih =>
    intro p q b hp hpw hq hqw
    have heq : (x :: a2) ++ litProjects ++ p ++ mid ++ q ++ b =
        x :: (a2 ++ litProjects ++ p ++ mid ++ q ++ b) := by
      simp
    rw [heq, findSeg]
    cases hm : matchSegAt mid
        (x :: (a2 ++ litProjects ++ p ++ mid ++ q ++ b)) with
    | some r => simp
    | none => simpa using ih p q b hp hpw hq hqw

theorem findSeg_none_iff (mid : List Char) (d : Char) (ms : List Char)
    (hmid : mid = d :: ms) (hd : isWordDash d = false) (cs : List Char) :
    findSeg mid cs = none ↔ ¬ hasSegSub mid cs := by
  constructor
  · intro h hsub
    obtain ⟨a, p, q, b, rfl, ⟨hp, hpw⟩, hq, hqw⟩ := hsub
    exact findSeg_ne_none_of_sub mid d ms hmid hd a p q b hp hpw hq hqw h
  · intro h
    cases hf : findSeg mid cs with
    | none => rfl
    | some r =>
      exfalso
      apply h
      obtain ⟨p, q⟩ := r
      obtain ⟨a, b, hcs, hp, hpw, hq, hqw⟩ := findSeg_some mid cs p q hf
      exact ⟨a, p, q, b, hcs, ⟨hp, hpw⟩, hq, hqw⟩

/-- C10: for every input string, the pubsub topic Set (and analogously
the firestore database Set) returns the sentinel invalid-format error
and leaves the receiver unchanged exactly when the string contains no
substring consisting of the projects literal, a word-class segment, the
middle literal and a word-class segment; otherwise it returns no error
and stores the two captured segments of the first (leftmost) match of
the unanchored pattern. -/
theorem c10_google_set (s : String) (t : GooglePubSubTopic)
    (f : GoogleFirestoreDatabase) :
    ((t.Set s).2.isSome ↔ ¬ hasSegSub litTopics s.data) ∧
    ((t.Set s).2.isSome → (t.Set s).1 = t ∧
      (t.Set s).2 = some errTopicMsg) ∧
    (∀ p q, findSeg litTopics s.data = some (p, q) →
      (t.Set s).2 = none ∧ (t.Set s).1 = ⟨String.mk p, String.mk q⟩) ∧
    ((f.Set s).2.isSome ↔ ¬ hasSegSub litDatabases s.data) ∧
    ((f.Set s).2.isSome → (f.Set s).1 = f ∧
      (f.Set s).2 = some errFirestoreMsg) ∧
    (∀ p q, findSeg litDatabases s.data = some (p, q) →
      (f.Set s).2 = none ∧ (f.Set s).1 = ⟨String.mk p, String.mk q⟩) := by
  have htop : litTopics = '/' :: "topics/".data := by decide
  have hdb : litDatabases = '/' :: "databases/".data := by decide
  have hw : isWordDash '/' = false := by decide
  refine ⟨?_, ?_, ?_, ?_, ?_, ?_⟩
  · cases hf : findSeg litTopics s.data with
    | none =>
      have hno : ¬ hasSegSub litTopics s.data :=
        (findSeg_none_iff _ _ _ htop hw s.data).mp hf
      simp [GooglePubSubTopic.Set, hf, hno]
    | some r =>
      obtain ⟨p, q⟩ := r
      have hhas : hasSegSub litTopics s.data := by
        obtain ⟨a, b, hcs, hp, hpw, hq, hqw⟩ := findSeg_some _ _ p q hf
        exact ⟨a, p, q, b, hcs, ⟨hp, hpw⟩, hq, hqw⟩
      simp [GooglePubSubTopic.Set, hf, hhas]
  · intro hs
    cases hf : findSeg litTopics s.data with
    | none => simp [GooglePubSubTopic.Set, hf]
    | some r =>
      rw [GooglePubSubTopic.Set, hf] at hs
      obtain ⟨p, q⟩ := r
      simp at hs
  · intro p q hpq
    simp [GooglePubSubTopic.Set, hpq]
  · cases hf : findSeg litDatabases s.data with
    | none =>
      have hno : ¬ hasSegSub litDatabases s.data :=
        (findSeg_none_iff _ _ _ hdb hw s.data).mp hf
      simp [GoogleFirestoreDatabase.Set, hf, hno]
    | some r =>
      obtain ⟨p, q⟩ := r
      have hhas : hasSegSub litDatabases s.data := by
        obtain ⟨a, b, hcs, hp, hpw, hq, hqw⟩ := findSeg_some _ _ p q hf
        exact ⟨a, p, q, b, hcs, ⟨hp, hpw⟩, hq, hqw⟩
      simp [GoogleFirestoreDatabase.Set, hf, hhas]
  · intro hs
    cases hf : findSeg litDatabases s.data with
    | none => simp [GoogleFirestoreDatabase.Set, hf]
    | some r =>
      rw [GoogleFirestoreDatabase.Set, hf] at hs
      obtain ⟨p, q⟩ := r
      simp at hs
  · intro p q hpq
    simp [GoogleFirestoreDatabase.Set, hpq]

/-- C10 witness: a value with no topic pattern keeps the receiver and
yields the sentinel error, and a value merely containing the pattern as
an inner substring is accepted with the captures of the first match. -/
theorem c10_google_set_witness :
    ((GooglePubSubTopic.Set ⟨"a", "b"⟩ "invalid/project-id/topics").2 =
      some errTopicMsg) ∧
    ((GooglePubSubTopic.Set ⟨"a", "b"⟩ "invalid/project-id/topics").1 =
      ⟨"a", "b"⟩) ∧
    ((GooglePubSubTopic.Set ⟨"a", "b"⟩
      "xxprojects/my-proj/topics/t_1,tail").1 = ⟨"my-proj", "t_1"⟩) ∧
    ((GoogleFirestoreDatabase.Set ⟨"a", "b"⟩
      "projects/project-id/databases/db").1 = ⟨"project-id", "db"⟩) := by
  have h1 := c10_google_set "invalid/project-id/topics" ⟨"a", "b"⟩ ⟨"a", "b"⟩
  have h2 := c10_google_set "xxprojects/my-proj/topics/t_1,tail" ⟨"a", "b"⟩
    ⟨"a", "b"⟩
  have h3 := c10_google_set "projects/project-id/databases/db" ⟨"a", "b"⟩
    ⟨"a", "b"⟩
  refine ⟨(h1.2.1 (by decide)).2, (h1.2.1 (by decide)).1, ?_, ?_⟩
  · exact (h2.2.2.1 "my-proj".data "t_1".data (by decide)).2
  · exact (h3.2.2.2.2.2 "project-id".data "db".data (by decide)).2
